import Mathlib

/-!
Verification development for the nexa electronics-assistant backend.

Shallow embedding of the deterministic parts of the repository:
`circuit_parser/utils.py` (value parsing), `ai-engine/circuit_parser/circuit_types.py`
(circuit-type detection, RC-filter math, truth tables), `fault_detection/analyzer.py`
(op-amp analysis), `functions/circuit_functions.py` and `validators/ohms_law.py`
(LED resistor sizing and standard-value snapping), `services/memory_service.py`
(skill-level updates), `api/chat_history.py` (message append).

Modelling conventions:
* Python floats are modelled as exact rationals `ℚ` (decimal literals such as
  `1e-3` are taken at their decimal value); the transcendental RC-filter math
  (`math.log10`, `math.atan`, `math.pi`) is modelled over `ℝ`.
* A raised Python exception is modelled as an error value (`PyErr`), carried
  either in an `Except` result or in an `error?` field when earlier mutations
  of the analyzer state must stay observable.
* Python dicts appear as association lists with the first binding winning,
  matching construction from parsed JSON where keys are unique.
-/

namespace Nexa

/-- Python exception kinds raised by the modelled code paths. -/
inductive PyErr where
  | valueError
  | zeroDivisionError
  | attributeError
  deriving DecidableEq, Repr

/-- Whether the first character list starts the second. -/
def leadsWith : List Char → List Char → Bool
  | [], _ => true
  | _ :: _, [] => false
  | c :: cs, d :: ds => c = d && leadsWith cs ds

/-- Whether `sub` occurs contiguously inside the second list. -/
def containsSeq (sub : List Char) : List Char → Bool
  | [] => sub.isEmpty
  | c :: t => leadsWith sub (c :: t) || containsSeq sub t

/-- Python substring containment `sub in s`. -/
def containsSub (s sub : String) : Bool :=
  containsSeq sub.data s.data

/-- Python `str.upper()` on one character (ASCII range, which covers every
string the modelled code compares). -/
def pyCharUpper (c : Char) : Char :=
  if 'a' ≤ c ∧ c ≤ 'z' then Char.ofNat (c.toNat - 32) else c

/-- Python `str.upper()`. -/
def pyUpper (s : String) : String :=
  ⟨s.data.map pyCharUpper⟩

/-! ## Value parsing (`src/backend/circuit_parser/utils.py`, `parse_value`)

`parse_value` strips one trailing unit character matching the regex class
`[VAΩHzF]`, then searches for the regex `([-\d.]+)([kMGmunp]?)`: the first
maximal run of sign/digit/dot characters, followed by an optional SI-prefix
letter, and multiplies the parsed float by the prefix multiplier. -/

/-- Characters of the unit-stripping regex class `[VAΩHzF]`. -/
def isUnitChar (c : Char) : Bool :=
  c = 'V' || c = 'A' || c = 'Ω' || c = 'H' || c = 'z' || c = 'F'

/-- Model of `re.sub(r'[VAΩHzF]$', '', s)`: drop the last character when it is
in the unit class. -/
def stripUnit (cs : List Char) : List Char :=
  match cs.getLast? with
  | some c => if isUnitChar c then cs.dropLast else cs
  | none => cs

/-- Characters matched by the regex class `[-\d.]`. -/
def isNumChar (c : Char) : Bool :=
  c = '-' || c.isDigit || c = '.'

/-- SI-prefix multiplier table of `parse_value` (`multipliers` dict), with the
float literals `1e3 … 1e-12` taken at their decimal values. -/
def siMult (c : Char) : Option ℚ :=
  if c = 'k' then some 1000
  else if c = 'M' then some 1000000
  else if c = 'G' then some 1000000000
  else if c = 'm' then some (1 / 1000)
  else if c = 'u' then some (1 / 1000000)
  else if c = 'n' then some (1 / 1000000000)
  else if c = 'p' then some (1 / 1000000000000)
  else none

/-- Value of a digit list read in base 10 (most significant digit first). -/
def natValD (ds : List Char) : ℕ :=
  ds.foldl (fun a c => 10 * a + (c.toNat - 48)) 0

/-- Python `float()` applied to a non-negative body consisting of digits and
dots: accepts `digits`, `digits.digits`, `.digits`, `digits.` and rejects
everything else (`ValueError` is `none`). -/
def pyFloatBody (body : List Char) : Option ℚ :=
  let ip := body.takeWhile Char.isDigit
  let rest := body.dropWhile Char.isDigit
  match rest with
  | [] => if ip.isEmpty then none else some (natValD ip)
  | '.' :: fp =>
      if fp.all Char.isDigit && !(ip.isEmpty && fp.isEmpty) then
        some ((natValD ip : ℚ) + (natValD fp : ℚ) / 10 ^ fp.length)
      else none
  | _ => none

/-- Python `float()` on a run of characters drawn from `[-\d.]`:
one optional leading minus sign, then a digits-and-one-dot body. -/
def pyFloat? (cs : List Char) : Option ℚ :=
  match cs with
  | '-' :: body => (pyFloatBody body).map Neg.neg
  | _ => pyFloatBody cs

/-- Model of `re.search(r'([-\d.]+)([kMGmunp]?)', s)`: the first maximal run of
`[-\d.]` characters together with the remaining suffix of the string. -/
def firstNumRun : List Char → Option (List Char × List Char)
  | [] => none
  | c :: rest =>
      if isNumChar c then
        some ((c :: rest).takeWhile isNumChar, (c :: rest).dropWhile isNumChar)
      else firstNumRun rest

/-- The `parse_value` utility of `circuit_parser/utils.py`. `none` models a
raised `ValueError` from `float()`. -/
def parse_value (cs : List Char) : Option ℚ :=
  if cs.isEmpty then some 0
  else
    let s := stripUnit cs
    match firstNumRun s with
    | some (run, rest) =>
        match pyFloat? run with
        | none => none
        | some v =>
            some (v * (match rest with
              | c :: _ => (siMult c).getD 1
              | [] => 1))
    | none => pyFloat? s

/-- Python `parse_value(x)` where `x` may be `None` (a missing component
value): `None` is falsy, so the function returns `0.0`. -/
def parseValueOpt (v : Option String) : Option ℚ :=
  match v with
  | none => some 0
  | some s => parse_value s.data

/-- A decimal magnitude string: integer digits followed by an optional dot
and fractional digits. -/
def renderMagnitude (ip : List Char) (fp : Option (List Char)) : List Char :=
  ip ++ (match fp with
    | some ds => '.' :: ds
    | none => [])

/-- The numeric value of a decimal magnitude: the positional value of the
integer digits plus the fractional digits scaled by `10 ^ length`. -/
def decimalVal (ip : List Char) (fp : Option (List Char)) : ℚ :=
  (natValD ip : ℚ) + (match fp with
    | some ds => (natValD ds : ℚ) / 10 ^ ds.length
    | none => 0)

/-- The multiplier applied for an optional SI prefix character: the table
value for a recognized prefix and 1 otherwise. -/
def siMultOf (px : Option Char) : ℚ :=
  match px with
  | some c => (siMult c).getD 1
  | none => 1

/-! ## Circuit data model (`circuit_parser/models.py`) -/

/-- Component `nodes`: either an ordered list of node names or a named-role
mapping (Python dict, modelled as an association list with unique keys). -/
inductive NodeSpec where
  | list (ns : List String)
  | dict (m : List (String × String))
  deriving DecidableEq, Repr

/-- First value bound to `k`, i.e. Python `m.get(k)` on a dict. -/
def roleGet (m : List (String × String)) (k : String) : Option String :=
  (m.find? (fun p => p.1 == k)).map (fun p => p.2)

/-- Python `m.get(k, "")`. -/
def roleGetD (m : List (String × String)) (k : String) : String :=
  (roleGet m k).getD ""

/-- The values of a node specification: the list itself, or `dict.values()`. -/
def nodeValues : NodeSpec → List String
  | .list ns => ns
  | .dict m => m.map (fun p => p.2)

/-- A circuit component (`Component` pydantic model). -/
structure Component where
  id : String
  ctype : String
  value : Option String
  nodes : NodeSpec
  deriving DecidableEq, Repr

/-- A supply entry (`Supply` pydantic model). -/
structure Supply where
  id : String
  stype : String
  value : String
  node : String
  deriving DecidableEq, Repr

/-- Circuit payload (`CircuitData` pydantic model). `measured_outputs` is
`Optional[Dict[str, str]]` and defaults to `None`. -/
structure CircuitData where
  circuit_id : String
  components : List Component
  supplies : List Supply
  measured_outputs : Option (List (String × String))
  deriving DecidableEq, Repr

/-! ## Circuit-type detection (`ai-engine/circuit_parser/circuit_types.py`) -/

/-- Role mapping of an op-amp: `opamp.nodes if isinstance(opamp.nodes, dict) else {}`. -/
def opampRoles (c : Component) : List (String × String) :=
  match c.nodes with
  | .dict m => m
  | .list _ => []

/-- The helper `is_connected_between`: both node names appear among the
component's node list or dict values. -/
def is_connected_between (c : Component) (n1 n2 : String) : Bool :=
  decide (n1 ∈ nodeValues c.nodes) && decide (n2 ∈ nodeValues c.nodes)

/-- The `detect_opamp_type` sub-classifier, line by line from
`circuit_types.py`. -/
def detect_opamp_type (opamp : Component) (resistors : List Component) : String :=
  let nodes := opampRoles opamp
  let non_inv := roleGetD nodes "non_inverting"
  let inv := roleGetD nodes "inverting"
  let output := roleGetD nodes "output"
  if output = inv ∨ (non_inv ≠ "" ∧ inv = "") then "opamp_buffer"
  else
    let has_feedback := resistors.any (fun r => is_connected_between r inv output)
    if has_feedback then
      if non_inv = "GND" ∨ non_inv = "0" then "opamp_inverting"
      else "opamp_non_inverting"
    else "opamp_non_inverting"

/-- Specification of the op-amp sub-classifier, written from the claim: buffer
when the output node equals the inverting node or a non-inverting node is
named while no inverting node is; otherwise, when some resistor has both the
inverting and output nodes among its node values, inverting exactly when the
non-inverting node is "GND" or "0" and non-inverting otherwise; and
non-inverting when no such feedback resistor exists. -/
def detectOpampTypeSpec (opamp : Component) (resistors : List Component) : String :=
  let nodes := opampRoles opamp
  let non_inv := roleGetD nodes "non_inverting"
  let inv := roleGetD nodes "inverting"
  let output := roleGetD nodes "output"
  if output = inv ∨ (non_inv ≠ "" ∧ inv = "") then "opamp_buffer"
  else if ∃ r ∈ resistors, inv ∈ nodeValues r.nodes ∧ output ∈ nodeValues r.nodes then
    if non_inv = "GND" ∨ non_inv = "0" then "opamp_inverting" else "opamp_non_inverting"
  else "opamp_non_inverting"

/-- The `detect_rc_filter_type` sub-classifier: always low-pass when both
resistors and capacitors are present. -/
def detect_rc_filter_type (resistors capacitors : List Component) : String :=
  if ¬resistors.isEmpty ∧ ¬capacitors.isEmpty then "rc_lowpass" else "unknown"

/-- The `detect_circuit_type` classifier of `circuit_types.py`: the elif chain
over the component-type filters, in source order. -/
def detect_circuit_type (cd : CircuitData) : String :=
  let components := cd.components
  let resistors := components.filter (fun c => c.ctype == "Resistor")
  let capacitors := components.filter (fun c => c.ctype == "Capacitor")
  let inductors := components.filter (fun c => c.ctype == "Inductor")
  let transistors := components.filter (fun c => c.ctype == "BJT" || c.ctype == "MOSFET" || c.ctype == "Transistor")
  let diodes := components.filter (fun c => c.ctype == "Diode")
  let leds := components.filter (fun c => c.ctype == "LED")
  let regulators := components.filter (fun c => c.ctype == "Regulator" || c.ctype == "VoltageRegulator")
  let timers := components.filter (fun c => containsSub (pyUpper c.id) "555")
  let logic_ics := components.filter (fun c => c.ctype == "IC" || c.ctype == "LogicGate")
  match components.filter (fun c => c.ctype == "OpAmp") with
  | opamp :: _ => detect_opamp_type opamp resistors
  | [] =>
    if ¬regulators.isEmpty then "linear_regulator"
    else if ¬timers.isEmpty then "555_timer"
    else if ¬transistors.isEmpty ∧ capacitors.isEmpty then
      (if ¬leds.isEmpty ∨ ¬diodes.isEmpty then "transistor_switch" else "transistor_amplifier")
    else if ¬logic_ics.isEmpty then "logic_gate"
    else if ¬resistors.isEmpty ∧ ¬capacitors.isEmpty ∧ inductors.isEmpty then
      detect_rc_filter_type resistors capacitors
    else if ¬inductors.isEmpty ∧ ¬capacitors.isEmpty then "lc_filter"
    else if ¬resistors.isEmpty ∧ ¬inductors.isEmpty ∧ ¬capacitors.isEmpty then "rlc_filter"
    else if ¬resistors.isEmpty ∧ ¬leds.isEmpty then "led_circuit"
    else if resistors.length = 2 ∧ capacitors.isEmpty ∧ inductors.isEmpty then "voltage_divider"
    else "unknown"

/-! ## Truth tables (`generate_truth_table` in `circuit_types.py`) -/

/-- Result shape of `generate_truth_table`. -/
structure TruthTable where
  gate_type : String
  num_inputs : ℕ
  inputs : List (List ℕ)
  outputs : List ℕ
  deriving DecidableEq, Repr

/-- Output of one truth-table row in the source's elif chain: Python `all` and
`any` test truthiness (non-zero) of the 0/1 entries. -/
def gateRowOut (g : String) (n : ℕ) (row : List ℕ) : ℕ :=
  if pyUpper g = "AND" then (if row.all (fun b => b ≠ 0) then 1 else 0)
  else if pyUpper g = "OR" then (if row.any (fun b => b ≠ 0) then 1 else 0)
  else if pyUpper g = "NAND" then (if row.all (fun b => b ≠ 0) then 0 else 1)
  else if pyUpper g = "NOR" then (if row.any (fun b => b ≠ 0) then 0 else 1)
  else if pyUpper g = "XOR" then row.sum % 2
  else if pyUpper g = "XNOR" then 1 - row.sum % 2
  else if pyUpper g = "NOT" ∧ n = 1 then 1 - row.headI
  else 0

/-- The `generate_truth_table` function: clamp the input count to 2 when it is
outside 1..4, then enumerate all `2^n` rows with
`input_row[j] = (i >> (n-1-j)) & 1`. -/
def generate_truth_table (g : String) (n : ℤ) : TruthTable :=
  let n' : ℕ := if n < 1 ∨ n > 4 then 2 else n.toNat
  let rows := (List.range (2 ^ n')).map
    (fun i => (List.range n').map (fun j => (i >>> (n' - 1 - j)) &&& 1))
  { gate_type := g
    num_inputs := n'
    inputs := rows
    outputs := rows.map (gateRowOut g n') }

/-- Specification of one gate output, written from the claim: AND is 1 iff all
inputs are 1, OR is 1 iff any input is 1, NAND and NOR their negations, XOR
the sum of the inputs mod 2, XNOR 1 minus that parity, NOT (with one input) 1
minus the input, and 0 for any unrecognized gate type. -/
def gateRowOutSpec (g : String) (n : ℕ) (row : List ℕ) : ℕ :=
  if pyUpper g = "AND" then (if ∀ b ∈ row, b = 1 then 1 else 0)
  else if pyUpper g = "OR" then (if ∃ b ∈ row, b = 1 then 1 else 0)
  else if pyUpper g = "NAND" then (if ∀ b ∈ row, b = 1 then 0 else 1)
  else if pyUpper g = "NOR" then (if ∃ b ∈ row, b = 1 then 0 else 1)
  else if pyUpper g = "XOR" then row.sum % 2
  else if pyUpper g = "XNOR" then 1 - row.sum % 2
  else if pyUpper g = "NOT" ∧ n = 1 then 1 - row.headI
  else 0

/-- Specification of the full truth table, written from the claim: `n` is
replaced by 2 when outside 1..4, the `2^n` rows are enumerated in binary
counting order with the most significant bit first (row `i`, column `j` holds
bit `n-1-j` of `i`, i.e. `i / 2^(n-1-j) % 2`), and each output follows
`gateRowOutSpec`. -/
def truthTableSpec (g : String) (n : ℤ) : TruthTable :=
  let n' : ℕ := if n < 1 ∨ n > 4 then 2 else n.toNat
  let rows := (List.range (2 ^ n')).map
    (fun i => (List.range n').map (fun j => i / 2 ^ (n' - 1 - j) % 2))
  { gate_type := g
    num_inputs := n'
    inputs := rows
    outputs := rows.map (gateRowOutSpec g n') }

/-! ## RC filter math (`calculate_rc_filter` in `circuit_types.py`)

The transcendental float calls (`math.pi`, `math.log10`, `math.atan`,
`math.degrees`) are modelled over `ℝ`. Python `round(x, 2)` is modelled as
rounding `100 x` to the nearest integer; its tie-breaking (round half to
even) differs from Mathlib `round` only at exact ties, which no statement
below exercises. -/

/-- Python `round(x, 2)` over the reals. -/
noncomputable def round2 (x : ℝ) : ℝ :=
  (round (100 * x) : ℤ) / 100

/-- Magnitude in dB of one Bode row: `-10 * math.log10(1 + (f / fc) ** 2)`. -/
noncomputable def bodeMagnitude (f fc : ℝ) : ℝ :=
  -10 * Real.logb 10 (1 + (f / fc) ^ 2)

/-- Phase in degrees of one Bode row: `-math.degrees(math.atan(f / fc))`,
where `math.degrees x = x * 180 / π`. -/
noncomputable def bodePhase (f fc : ℝ) : ℝ :=
  -(Real.arctan (f / fc) * 180 / Real.pi)

/-- The Bode frequency points: `mult * 10 ** exp` for `exp in range(-2, 5)`
and `mult in [1, 2, 5]`, in that enumeration order. -/
noncomputable def bodeFreqs : List ℝ :=
  ((List.range 7).map (fun k => (k : ℤ) - 2)).flatMap
    (fun e => [1, 2, 5].map (fun m => (m : ℝ) * (10 : ℝ) ^ e))

/-- One row of the generated Bode table. -/
structure BodeRow where
  frequency : ℝ
  magnitude_db : ℝ
  phase_deg : ℝ

/-- Result shape of `calculate_rc_filter` (the numeric fields). -/
structure RcFilterResult where
  cutoff_frequency : ℝ
  time_constant : ℝ
  bode_data : List BodeRow
  bandwidth : ℝ

/-- The `calculate_rc_filter` function of `circuit_types.py`. -/
noncomputable def calculate_rc_filter (resistance capacitance : ℝ) : RcFilterResult :=
  let fc := 1 / (2 * Real.pi * resistance * capacitance)
  { cutoff_frequency := fc
    time_constant := resistance * capacitance
    bode_data := bodeFreqs.map (fun f =>
      { frequency := f
        magnitude_db := round2 (bodeMagnitude f fc)
        phase_deg := round2 (bodePhase f fc) })
    bandwidth := fc }

/-- Specification of the Bode table, written from the claim: one row for each
frequency `m * 10 ^ e` with `e` ranging over -2..4 and `m` over 1, 2, 5, in
that enumeration order, whose magnitude is `-10 * log10 (1 + (f/fc)^2)` dB
and whose phase is `-atan (f/fc)` in degrees, each rounded to two decimal
places. -/
noncomputable def bodeTableSpec (fc : ℝ) : List BodeRow :=
  (([-2, -1, 0, 1, 2, 3, 4] : List ℤ).flatMap
      (fun e => [1, 2, 5].map (fun m => (m : ℝ) * (10 : ℝ) ^ e))).map
    (fun f =>
      { frequency := f
        magnitude_db := round2 (-10 * Real.logb 10 (1 + (f / fc) ^ 2))
        phase_deg := round2 (-(180 / Real.pi * Real.arctan (f / fc))) })

/-! ## LED resistor sizing and standard-value snapping
(`functions/circuit_functions.py` and `validators/ohms_law.py`) -/

/-- The `STANDARD_RESISTORS` table of `CircuitFunctions` (as written in the
source: full E24 up to 9.1 kΩ, then E6 steps up to 680 kΩ, then 1 MΩ). -/
def STANDARD_RESISTORS : List ℚ :=
  [10, 11, 12, 13, 15, 16, 18, 20, 22, 24, 27, 30, 33, 36, 39, 43, 47, 51, 56, 62, 68, 75, 82, 91,
   100, 110, 120, 130, 150, 160, 180, 200, 220, 240, 270, 300, 330, 360, 390, 430, 470, 510, 560,
   620, 680, 750, 820, 910,
   1000, 1100, 1200, 1300, 1500, 1600, 1800, 2000, 2200, 2400, 2700, 3000, 3300, 3600, 3900, 4300,
   4700, 5100, 5600, 6200, 6800, 7500, 8200, 9100,
   10000, 15000, 22000, 33000, 47000, 68000, 100000, 150000, 220000, 330000, 470000, 680000,
   1000000]

/-- Python `min(xs, key=k)` on a non-empty list: the first element achieving
the minimal key. The empty-list case (a raised `ValueError`, never reached
here) returns 0. -/
def pyMinBy (k : ℚ → ℚ) : List ℚ → ℚ
  | [] => 0
  | x :: xs => xs.foldl (fun a y => if k y < k a then y else a) x

/-- `CircuitFunctions.find_nearest_standard_resistor`. -/
def find_nearest_standard_resistor (value : ℚ) : ℚ :=
  if value ≤ 0 then 10
  else pyMinBy (fun x => |x - value|) STANDARD_RESISTORS

/-- Result record of the `led_resistor` branch of `calculate_component_value`
(the fields the claims mention; the textual formula/steps/warnings are
omitted). -/
structure LedCalcResult where
  validation : String
  result : Option ℚ
  nearest_standard_value : Option ℚ
  actual_current : Option ℚ
  power_dissipation : Option ℚ
  deriving DecidableEq, Repr

/-- The `led_resistor` branch of `CircuitFunctions.calculate_component_value`:
a supply voltage not exceeding the forward voltage yields the validation-error
record with no numeric result; a zero forward current then raises
`ZeroDivisionError` from `(vs - vf) / if_a`; otherwise the raw resistance,
its nearest standard value, the recomputed current and the power dissipation
are returned. -/
def calculate_component_value_led_resistor (vs vf if_ma : ℚ) :
    Except PyErr LedCalcResult :=
  let if_a := if_ma / 1000
  if vs ≤ vf then
    .ok { validation := "error", result := none, nearest_standard_value := none,
          actual_current := none, power_dissipation := none }
  else if if_a = 0 then .error .zeroDivisionError
  else
    let r := (vs - vf) / if_a
    let nearest := find_nearest_standard_resistor r
    let actual := (vs - vf) / nearest * 1000
    .ok { validation := "valid", result := some r, nearest_standard_value := some nearest,
          actual_current := some actual,
          power_dissipation := some ((actual / 1000) ^ 2 * nearest) }

/-- The `e24` base values of `OhmsLawValidator.calculate_led_resistor`. -/
def e24Base : List ℚ :=
  [10, 11, 12, 13, 15, 16, 18, 20, 22, 24, 27, 30, 33, 36, 39, 43, 47, 51, 56, 62, 68, 75, 82, 91]

/-- The `standard_values` list of `OhmsLawValidator.calculate_led_resistor`:
`[v * m for v in e24 for m in multipliers]` with multipliers 1..10000. -/
def ohmsStandardValues : List ℚ :=
  e24Base.flatMap (fun v => ([1, 10, 100, 1000, 10000] : List ℚ).map (fun m => v * m))

/-- Result record of `OhmsLawValidator.calculate_led_resistor` (numeric
fields). -/
structure OhmsLedResult where
  valid : Bool
  calculated_resistance : Option ℚ
  nearest_standard : Option ℚ
  actual_current_ma : Option ℚ
  power_dissipation_mw : Option ℚ
  deriving DecidableEq, Repr

/-- `OhmsLawValidator.calculate_led_resistor`: guard on the supply margin,
raw resistance, snap to the first closest entry of `ohmsStandardValues`,
recompute the achieved current and power. A zero desired current raises
`ZeroDivisionError`. -/
def calculate_led_resistor (supply_voltage led_forward_voltage desired_current_ma : ℚ) :
    Except PyErr OhmsLedResult :=
  if supply_voltage ≤ led_forward_voltage then
    .ok { valid := false, calculated_resistance := none, nearest_standard := none,
          actual_current_ma := none, power_dissipation_mw := none }
  else
    let voltage_across := supply_voltage - led_forward_voltage
    let current_amps := desired_current_ma / 1000
    if current_amps = 0 then .error .zeroDivisionError
    else
      let resistance := voltage_across / current_amps
      let nearest := pyMinBy (fun x => |x - resistance|) ohmsStandardValues
      let actual := voltage_across / nearest * 1000
      .ok { valid := true, calculated_resistance := some resistance,
            nearest_standard := some nearest, actual_current_ma := some actual,
            power_dissipation_mw := some ((actual / 1000) ^ 2 * nearest * 1000) }

/-- Modelled from the spec: the standard resistor series the claim describes,
24 values per decade (the E24 series) spanning 10 Ω to 1 MΩ inclusive. The
source has no such table; this definition exists only to compare the claim's
series against the two tables the source actually uses. -/
def e24ClaimSeries : List ℚ :=
  ohmsStandardValues ++ [1000000]

/-! ## Skill-level updates (`services/memory_service.py`, `update_skill_level`) -/

/-- The conversation indicators read by `update_skill_level`, with the dict
lookups' defaults applied when a key is absent. -/
structure SkillIndicators where
  complexity_of_questions : Option ℚ
  uses_technical_terms : Option Bool
  asks_about_optimization : Option Bool
  deriving DecidableEq, Repr

/-- The level derived from the indicators: advanced when complexity ≥ 8 with
technical terms and optimization interest, intermediate when complexity ≥ 5
or technical terms are used, beginner otherwise. -/
def deriveSkillLevel (ind : SkillIndicators) : String :=
  let complexity := ind.complexity_of_questions.getD 5
  let technical := ind.uses_technical_terms.getD false
  let optimization := ind.asks_about_optimization.getD false
  if 8 ≤ complexity ∧ technical ∧ optimization then "advanced"
  else if 5 ≤ complexity ∨ technical then "intermediate"
  else "beginner"

/-- The `level_order` dict lookup with default 0 (`level_order.get(x, 0)`). -/
def levelOrder (s : String) : ℕ :=
  if s = "beginner" then 0
  else if s = "intermediate" then 1
  else if s = "advanced" then 2
  else 0

/-- The stored-profile effect of `update_skill_level`: the profile's skill
level is replaced by the derived level exactly when the derived level's order
is strictly greater. -/
def update_skill_level (stored : String) (ind : SkillIndicators) : String :=
  let new_level := deriveSkillLevel ind
  if levelOrder stored < levelOrder new_level then new_level else stored

/-! ## Chat message append (`api/chat_history.py`, `add_message`) -/

/-- A stored chat message. -/
structure ChatMessageRec where
  id : String
  role : String
  content : String
  timestamp : ℕ
  deriving DecidableEq, Repr

/-- A stored chat session document (the fields `add_message` can touch plus
the frame it must leave alone). -/
structure ChatSessionRec where
  title : String
  project_id : Option String
  user_id : String
  messages : List ChatMessageRec
  created_at : ℕ
  updated_at : ℕ
  deriving DecidableEq, Repr

/-- The title written by `add_message` when it auto-titles: the first 50
characters of the content, with "..." appended exactly when the content is
longer than 50 characters. -/
def autoTitle (content : String) : String :=
  content.take 50 ++ (if 50 < content.length then "..." else "")

/-- The document transformation performed by `add_message`: push the new
message, set `updated_at`, and set the title to the truncated content exactly
when the stored title is still "New Chat" and the new message's role is
"user". -/
def add_message (s : ChatSessionRec) (msgId role content : String) (now : ℕ) :
    ChatSessionRec :=
  let msg : ChatMessageRec := { id := msgId, role := role, content := content, timestamp := now }
  { s with
    title := if s.title = "New Chat" ∧ role = "user" then autoTitle content else s.title
    messages := s.messages ++ [msg]
    updated_at := now }

/-! ## Op-amp fault analysis (`fault_detection/analyzer.py`,
`_analyze_opamp_circuit`)

The analyzer mutates `self.faults` and `self.analysis_results` as it runs and
may then raise; the model returns the accumulated state together with an
optional exception so mutations made before a raise stay observable. Fault
strings are abstracted to their kind (the message text only interpolates the
already-recorded numbers). -/

/-- Kinds of fault appended by the op-amp analysis. -/
inductive FaultKind where
  | posSaturation
  | negSaturation
  deriving DecidableEq, Repr

/-- Accumulated analyzer state after `_analyze_opamp_circuit`. -/
structure OpampAnalysis where
  faults : List FaultKind
  topology : Option String
  gain : Option ℚ
  input_voltage : Option ℚ
  expected_output : Option ℚ
  rf : Option ℚ
  rin : Option ℚ
  measured_output : Option ℚ
  error : Option PyErr
  deriving DecidableEq, Repr

/-- The empty analyzer state. -/
def OpampAnalysis.init : OpampAnalysis :=
  { faults := [], topology := none, gain := none, input_voltage := none,
    expected_output := none, rf := none, rin := none, measured_output := none,
    error := none }

/-- `CircuitAnalyzer._get_supply_voltage`: the parsed value of the first
supply whose node or id matches, `none` when no supply matches. A failing
parse is a raised `ValueError`. -/
def getSupplyVoltage (d : CircuitData) (node_or_id : String) :
    Except PyErr (Option ℚ) :=
  match d.supplies.find? (fun s => s.node == node_or_id || s.id == node_or_id) with
  | none => .ok none
  | some s =>
      match parse_value s.value.data with
      | none => .error .valueError
      | some q => .ok (some q)

/-- Python `x or default` for an optional float: `None` and `0.0` are both
falsy and fall through to the default. -/
def pyOrDefault (v : Option ℚ) (d : ℚ) : ℚ :=
  match v with
  | none => d
  | some q => if q = 0 then d else q

/-- `CircuitAnalyzer._is_connected` applied to a node read from
`nodes.get(...)`, which may be `None`: `None` is never among the string node
values. -/
def isConnectedOpt (c : Component) (n : Option String) : Bool :=
  match n with
  | none => false
  | some s => decide (s ∈ nodeValues c.nodes)

/-- The input-supply selection of `_analyze_opamp_circuit`: the first supply
whose id does not contain "VCC". -/
def findInputSupply (d : CircuitData) : Option Supply :=
  d.supplies.find? (fun s => !containsSub s.id "VCC")

/-- The input voltage of `_analyze_opamp_circuit`:
`parse_value(input_supply.value) if input_supply else 0.0`. -/
def inputVoltageE (d : CircuitData) : Except PyErr ℚ :=
  match findInputSupply d with
  | none => .ok 0
  | some s =>
      match parse_value s.value.data with
      | none => .error .valueError
      | some q => .ok q

/-- The feedback-resistor search: the first resistor connected to both the
output node and the inverting node. -/
def findRf (resistors : List Component) (output_node inv_node : Option String) :
    Option Component :=
  resistors.find? (fun r => isConnectedOpt r output_node && isConnectedOpt r inv_node)

/-- The input-resistor search: the first resistor connected to the inverting
node and different from the feedback resistor (`r != rf`; pydantic equality
is field equality). -/
def findRin (resistors : List Component) (inv_node : Option String)
    (rf : Option Component) : Option Component :=
  resistors.find? (fun r => isConnectedOpt r inv_node &&
    (match rf with | some f => r != f | none => true))

/-- `CircuitAnalyzer._analyze_opamp_circuit`, line by line. List-shaped op-amp
nodes raise `AttributeError` at `nodes.get`; the rails apply the `or` default
(15 and -15); the gain computation raises `ZeroDivisionError` when the parsed
input resistance is 0; the saturation faults are an if/elif pair; the
measured-output read raises `AttributeError` when `measured_outputs` is
`None`, after the faults were already appended. -/
def analyzeOpampCircuit (d : CircuitData) (opamp : Component)
    (resistors : List Component) : OpampAnalysis :=
  match opamp.nodes with
  | .list _ => { OpampAnalysis.init with error := some .attributeError }
  | .dict m =>
    let inv_node := roleGet m "inverting"
    let non_inv_node := roleGet m "non_inverting"
    let output_node := roleGet m "output"
    match getSupplyVoltage d "VCC_POS" with
    | .error e => { OpampAnalysis.init with error := some e }
    | .ok vposOpt =>
      let v_pos := pyOrDefault vposOpt 15
      match getSupplyVoltage d "VCC_NEG" with
      | .error e => { OpampAnalysis.init with error := some e }
      | .ok vnegOpt =>
        let v_neg := pyOrDefault vnegOpt (-15)
        match inputVoltageE d with
        | .error e => { OpampAnalysis.init with error := some e }
        | .ok input_voltage =>
          let rfO := findRf resistors output_node inv_node
          let rinO := findRin resistors inv_node rfO
          match rfO, rinO with
          | some rf, some rin =>
            if non_inv_node = some "GND" then
              match parseValueOpt rf.value, parseValueOpt rin.value with
              | some rf_val, some rin_val =>
                if rin_val = 0 then
                  { OpampAnalysis.init with
                    topology := some "Inverting Amplifier"
                    error := some .zeroDivisionError }
                else
                  let gain := -(rf_val / rin_val)
                  let expected := gain * input_voltage
                  let faults :=
                    if v_pos < expected then [FaultKind.posSaturation]
                    else if expected < v_neg then [FaultKind.negSaturation]
                    else []
                  let base : OpampAnalysis :=
                    { faults := faults, topology := some "Inverting Amplifier",
                      gain := some gain, input_voltage := some input_voltage,
                      expected_output := some expected, rf := some rf_val,
                      rin := some rin_val, measured_output := none, error := none }
                  match d.measured_outputs with
                  | none => { base with error := some .attributeError }
                  | some mo =>
                      match roleGet mo "VOUT" with
                      | none => base
                      | some mstr =>
                          if mstr = "" then base
                          else
                            match parse_value mstr.data with
                            | none => { base with error := some .valueError }
                            | some mv => { base with measured_output := some mv }
              | _, _ =>
                { OpampAnalysis.init with
                  topology := some "Inverting Amplifier"
                  error := some .valueError }
            else OpampAnalysis.init
          | _, _ => OpampAnalysis.init

/-! ## Concrete circuits for the op-amp analysis claims -/

/-- An op-amp with named roles: inverting input INV, non-inverting input tied
to GND, output OUT. -/
def invOpamp : Component :=
  { id := "U1", ctype := "OpAmp", value := none,
    nodes := .dict [("inverting", "INV"), ("non_inverting", "GND"), ("output", "OUT")] }

/-- A feedback resistor between OUT and INV with the given value, and an
input resistor between VIN and INV of 10 kΩ. -/
def invResistors (rfv : String) : List Component :=
  [{ id := "R1", ctype := "Resistor", value := some rfv, nodes := .list ["OUT", "INV"] },
   { id := "R2", ctype := "Resistor", value := some "10k", nodes := .list ["VIN", "INV"] }]

/-- The claim's example circuit: a single 2 V input supply (so both rails
default to ±15 V) and an empty measured-outputs dict. -/
def invCircuit (rfv : String) : CircuitData :=
  { circuit_id := "ex", components := invOpamp :: invResistors rfv,
    supplies := [{ id := "VIN", stype := "DC", value := "2V", node := "VIN" }],
    measured_outputs := some [] }

/-- A circuit whose VCC_POS supply parses to -5 V and whose VCC_NEG supply
parses to +5 V, with a -1 V input: the expected output (+1 V) lies strictly
between the positive rail (-5) and the negative rail (+5). -/
def railFlipCircuit : CircuitData :=
  { circuit_id := "cx", components := invOpamp :: invResistors "10k",
    supplies := [{ id := "VCC_POS", stype := "DC", value := "-5", node := "VCC_POS" },
                 { id := "VCC_NEG", stype := "DC", value := "5", node := "VCC_NEG" },
                 { id := "VIN", stype := "DC", value := "-1", node := "VIN" }],
    measured_outputs := some [] }

/-! ## Helper lemmas -/

/-- The op-amp sub-classifier only produces the three op-amp type tags. -/
theorem detect_opamp_type_mem (opamp : Component) (resistors : List Component) :
    detect_opamp_type opamp resistors ∈
      (["opamp_buffer", "opamp_inverting", "opamp_non_inverting"] : List String) := by
  simp only [detect_opamp_type]
  split
  · simp
  · split
    · split <;> simp
    · simp

/-- The RC sub-classifier only produces low-pass or unknown. -/
theorem detect_rc_filter_type_ne_rlc (resistors capacitors : List Component) :
    detect_rc_filter_type resistors capacitors ≠ "rlc_filter" := by
  simp only [detect_rc_filter_type]
  split <;> decide

/-! ## C10 -/

/-- C10: `detect_circuit_type` never returns "rlc_filter": the branch
requiring inductors and capacitors is tested before the branch requiring
resistors, inductors, and capacitors, so the latter is unreachable. -/
theorem detect_circuit_type_never_rlc (cd : CircuitData) :
    detect_circuit_type cd ≠ "rlc_filter" := by
  simp only [detect_circuit_type]
  split
  · rename_i opamp _ _
    have h := detect_opamp_type_mem opamp
      (cd.components.filter (fun c => c.ctype == "Resistor"))
    intro he
    rw [he] at h
    simp at h
  · split_ifs <;>
      first
        | decide
        | exact detect_rc_filter_type_ne_rlc _ _
        | tauto

/-! ## C3 -/

/-- C3: the op-amp sub-classifier agrees with its specification: buffer when
the output node equals the inverting node or a non-inverting node is named
while no inverting node is; otherwise, when some resistor has both the
inverting node and the output node among its node values, inverting exactly
when the non-inverting node is "GND" or "0" and non-inverting otherwise; and
non-inverting when no feedback resistor exists. -/
theorem detect_opamp_type_correct (opamp : Component) (resistors : List Component) :
    detect_opamp_type opamp resistors = detectOpampTypeSpec opamp resistors := by
  simp only [detect_opamp_type, detectOpampTypeSpec, is_connected_between,
    List.any_eq_true, Bool.and_eq_true, decide_eq_true_eq]

/-! ## C5 -/

/-- On rows whose entries are all 0 or 1, the Python truthiness-based gate
outputs coincide with the all-inputs-are-1 characterizations of the claim. -/
theorem gateRowOut_eq_spec (g : String) (n : ℕ) (row : List ℕ)
    (h : ∀ b ∈ row, b ≤ 1) : gateRowOut g n row = gateRowOutSpec g n row := by
  have hall : (row.all fun b => b ≠ 0) = true ↔ ∀ b ∈ row, b = 1 := by
    simp only [List.all_eq_true, decide_eq_true_eq]
    constructor
    · intro h1 b hb
      have := h b hb
      have := h1 b hb
      omega
    · intro h1 b hb
      have := h1 b hb
      omega
  have hany : (row.any fun b => b ≠ 0) = true ↔ ∃ b ∈ row, b = 1 := by
    simp only [List.any_eq_true, decide_eq_true_eq]
    constructor
    · rintro ⟨b, hb, hb0⟩
      have := h b hb
      exact ⟨b, hb, by omega⟩
    · rintro ⟨b, hb, hb1⟩
      exact ⟨b, hb, by omega⟩
  unfold gateRowOut gateRowOutSpec
  split_ifs <;>
    first
      | rfl
      | (exact absurd (hall.mp ‹_›) ‹_›)
      | (exact absurd (hall.mpr ‹_›) ‹_›)
      | (exact absurd (hany.mp ‹_›) ‹_›)
      | (exact absurd (hany.mpr ‹_›) ‹_›)

/-- Each entry produced by the row generator is 0 or 1. -/
theorem row_entry_le_one (n' i : ℕ) :
    ∀ b ∈ (List.range n').map (fun j => (i >>> (n' - 1 - j)) &&& 1), b ≤ 1 := by
  intro b hb
  simp only [List.mem_map] at hb
  obtain ⟨j, -, rfl⟩ := hb
  exact Nat.and_le_right

/-- C5: `generate_truth_table` clamps an out-of-range input count to 2,
enumerates all `2^n` rows in binary counting order with the most significant
bit first, and computes each gate's output as the claim describes (AND is 1
iff all inputs are 1, OR iff any is 1, NAND/NOR their negations, XOR the
parity, XNOR its complement, NOT with one input the negation, any other gate
0); in particular XOR on 2 inputs yields rows 00→0, 01→1, 10→1, 11→0. -/
theorem generate_truth_table_correct :
    (∀ (g : String) (n : ℤ), generate_truth_table g n = truthTableSpec g n) ∧
    generate_truth_table "XOR" 2 =
      { gate_type := "XOR", num_inputs := 2,
        inputs := [[0, 0], [0, 1], [1, 0], [1, 1]], outputs := [0, 1, 1, 0] } := by
  constructor
  · intro g n
    unfold generate_truth_table truthTableSpec
    have hrow : ∀ n' : ℕ,
        ((List.range (2 ^ n')).map
          (fun i => (List.range n').map (fun j => (i >>> (n' - 1 - j)) &&& 1))) =
        ((List.range (2 ^ n')).map
          (fun i => (List.range n').map (fun j => i / 2 ^ (n' - 1 - j) % 2))) := by
      intro n'
      refine List.map_congr_left (fun i _ => ?_)
      refine List.map_congr_left (fun j _ => ?_)
      rw [Nat.shiftRight_eq_div_pow, Nat.and_one_is_mod]
    simp only [hrow]
    refine congrArg _ ?_
    refine List.map_congr_left (fun row hrow' => ?_)
    rw [← hrow] at hrow'
    simp only [List.mem_map] at hrow'
    obtain ⟨i, -, rfl⟩ := hrow'
    exact gateRowOut_eq_spec _ _ _ (row_entry_le_one _ i)
  · decide

/-! ## C8 -/

/-- C8: `update_skill_level` never lowers the stored skill level under the
order beginner < intermediate < advanced, and the stored level changes
exactly when the level derived from the indicators is strictly higher. -/
theorem update_skill_level_monotone (stored : String) (ind : SkillIndicators) :
    levelOrder stored ≤ levelOrder (update_skill_level stored ind) ∧
    (update_skill_level stored ind ≠ stored ↔
      levelOrder stored < levelOrder (deriveSkillLevel ind)) := by
  unfold update_skill_level
  by_cases h : levelOrder stored < levelOrder (deriveSkillLevel ind)
  · rw [if_pos h]
    refine ⟨le_of_lt h, iff_of_true ?_ h⟩
    intro he
    rw [he] at h
    exact lt_irrefl _ h
  · rw [if_neg h]
    exact ⟨le_refl _, iff_of_false (fun he => he rfl) h⟩

/-! ## C9 -/

/-- C9: `add_message` sets the session title to the first 50 characters of
the content, with "..." appended exactly when the content is longer than 50
characters, precisely when the stored title is still "New Chat" and the role
is "user"; in every other case the title is unchanged, and only the messages
list (one pushed message) and the `updated_at` timestamp are modified. -/
theorem add_message_title_frame (s : ChatSessionRec)
    (msgId role content : String) (now : ℕ) :
    (add_message s msgId role content now).title =
      (if s.title = "New Chat" ∧ role = "user" then
        content.take 50 ++ (if 50 < content.length then "..." else "")
      else s.title) ∧
    (add_message s msgId role content now).messages =
      s.messages ++ [{ id := msgId, role := role, content := content, timestamp := now }] ∧
    (add_message s msgId role content now).updated_at = now ∧
    (add_message s msgId role content now).project_id = s.project_id ∧
    (add_message s msgId role content now).user_id = s.user_id ∧
    (add_message s msgId role content now).created_at = s.created_at :=
  ⟨rfl, rfl, rfl, rfl, rfl, rfl⟩

/-! ## C7 -/

/-- The fold inside `pyMinBy` returns the accumulator or a list element. -/
theorem pyMinBy_fold_mem (k : ℚ → ℚ) (xs : List ℚ) :
    ∀ x : ℚ, xs.foldl (fun a y => if k y < k a then y else a) x ∈ x :: xs := by
  induction xs with
  | nil => intro x; exact List.mem_singleton.mpr rfl
  | cons y ys ih =>
      intro x
      simp only [List.foldl_cons]
      rcases List.mem_cons.mp (ih (if k y < k x then y else x)) with h | h
      · rw [h]
        split
        · exact List.mem_cons_of_mem _ (List.mem_cons_self _ _)
        · exact List.mem_cons_self _ _
      · exact List.mem_cons_of_mem _ (List.mem_cons_of_mem _ h)

/-- The fold inside `pyMinBy` attains the minimal key among the accumulator
and the list elements. -/
theorem pyMinBy_fold_le (k : ℚ → ℚ) (xs : List ℚ) :
    ∀ x : ℚ, ∀ z ∈ x :: xs,
      k (xs.foldl (fun a y => if k y < k a then y else a) x) ≤ k z := by
  induction xs with
  | nil =>
      intro x z hz
      rcases List.mem_cons.mp hz with h | h
      · subst h
        exact le_of_eq rfl
      · exact absurd h (List.not_mem_nil z)
  | cons y ys ih =>
      intro x z hz
      simp only [List.foldl_cons]
      have hacc : k (if k y < k x then y else x) ≤ k x ∧
          k (if k y < k x then y else x) ≤ k y := by
        split
        · rename_i hlt
          exact ⟨le_of_lt hlt, le_refl _⟩
        · rename_i hnlt
          exact ⟨le_refl _, le_of_not_lt hnlt⟩
      rcases List.mem_cons.mp hz with h | h
      · rw [h]
        exact le_trans (ih _ _ (List.mem_cons_self _ _)) hacc.1
      · rcases List.mem_cons.mp h with h' | h'
        · rw [h']
          exact le_trans (ih _ _ (List.mem_cons_self _ _)) hacc.2
        · exact ih _ _ (List.mem_cons_of_mem _ h')

/-- `pyMinBy` on a non-empty list is a member of the list achieving the
minimal key. -/
theorem pyMinBy_spec (k : ℚ → ℚ) (l : List ℚ) (hl : l ≠ []) :
    pyMinBy k l ∈ l ∧ ∀ z ∈ l, k (pyMinBy k l) ≤ k z := by
  match l with
  | [] => exact absurd rfl hl
  | x :: xs => exact ⟨pyMinBy_fold_mem k xs x, pyMinBy_fold_le k xs x⟩

/-- Every entry of `STANDARD_RESISTORS` is at least 10. -/
theorem standard_resistors_ge_ten : ∀ s ∈ STANDARD_RESISTORS, (10 : ℚ) ≤ s := by
  decide

/-- The Ohm's-law standard series, evaluated: E24 over five decades, topping
out at 910 kΩ. -/
theorem ohmsStandardValues_eq : ohmsStandardValues =
    [10, 100, 1000, 10000, 100000, 11, 110, 1100, 11000, 110000, 12, 120, 1200, 12000, 120000, 13,
     130, 1300, 13000, 130000, 15, 150, 1500, 15000, 150000, 16, 160, 1600, 16000, 160000, 18, 180,
     1800, 18000, 180000, 20, 200, 2000, 20000, 200000, 22, 220, 2200, 22000, 220000, 24, 240, 2400,
     24000, 240000, 27, 270, 2700, 27000, 270000, 30, 300, 3000, 30000, 300000, 33, 330, 3300,
     33000, 330000, 36, 360, 3600, 36000, 360000, 39, 390, 3900, 39000, 390000, 43, 430, 4300,
     43000, 430000, 47, 470, 4700, 47000, 470000, 51, 510, 5100, 51000, 510000, 56, 560, 5600,
     56000, 560000, 62, 620, 6200, 62000, 620000, 68, 680, 6800, 68000, 680000, 75, 750, 7500,
     75000, 750000, 82, 820, 8200, 82000, 820000, 91, 910, 9100, 91000, 910000] := by
  norm_num [ohmsStandardValues, e24Base]

/-- C7 counterexample: the snapping operations do not use a 24-value-per-
decade series spanning 10 Ω to 1 MΩ. At a raw value of 110 kΩ,
`find_nearest_standard_resistor` (invoked by `calculate_component_value` on
supply 5 V, forward voltage 2 V, forward current 3/110 mA) returns 100 kΩ even
though 110 kΩ itself belongs to the claimed E24 series; and the Ohm's-law
table stops at 910 kΩ, so at a raw value of 960 kΩ (forward current 1/320 mA)
`calculate_led_resistor` returns 910 kΩ although the claimed series contains
1 MΩ, which is strictly closer. -/
theorem nearest_standard_not_full_e24 :
    (calculate_component_value_led_resistor 5 2 (3 / 110)).map
        LedCalcResult.nearest_standard_value = .ok (some 100000) ∧
    (110000 : ℚ) ∈ e24ClaimSeries ∧
    |(110000 : ℚ) - 110000| < |(100000 : ℚ) - 110000| ∧
    (calculate_led_resistor 5 2 (1 / 320)).map OhmsLedResult.nearest_standard =
      .ok (some 910000) ∧
    (1000000 : ℚ) ∈ e24ClaimSeries ∧ (1000000 : ℚ) ∉ ohmsStandardValues ∧
    |(1000000 : ℚ) - 960000| < |(910000 : ℚ) - 960000| := by
  refine ⟨?_, ?_, by norm_num, ?_, ?_, ?_, by norm_num⟩
  · norm_num [calculate_component_value_led_resistor, find_nearest_standard_resistor,
      pyMinBy, STANDARD_RESISTORS, Except.map]
  · simp only [e24ClaimSeries, ohmsStandardValues_eq]
    decide
  · norm_num [calculate_led_resistor, pyMinBy, ohmsStandardValues_eq, Except.map]
  · simp only [e24ClaimSeries, ohmsStandardValues_eq]
    decide
  · rw [ohmsStandardValues_eq]
    decide

/-- C7 amended: each snapping operation returns the member of its own fixed
table that is closest in absolute difference to the raw resistance:
`find_nearest_standard_resistor` over `STANDARD_RESISTORS` (E24 up to
9.1 kΩ, E6 from 10 kΩ to 680 kΩ, then 1 MΩ), and
`OhmsLawValidator.calculate_led_resistor` over the E24 series spanning five
decades from 10 Ω to 910 kΩ. -/
theorem nearest_standard_minimal :
    (∀ v : ℚ, find_nearest_standard_resistor v ∈ STANDARD_RESISTORS ∧
      ∀ s ∈ STANDARD_RESISTORS, |find_nearest_standard_resistor v - v| ≤ |s - v|) ∧
    (∀ vs vf ima : ℚ, vf < vs → ima ≠ 0 →
      ∃ nst : ℚ,
        (calculate_led_resistor vs vf ima).map OhmsLedResult.nearest_standard =
          .ok (some nst) ∧
        nst ∈ ohmsStandardValues ∧
        ∀ s ∈ ohmsStandardValues,
          |nst - (vs - vf) / (ima / 1000)| ≤ |s - (vs - vf) / (ima / 1000)|) := by
  constructor
  · intro v
    unfold find_nearest_standard_resistor
    split
    · rename_i hv
      refine ⟨by decide, fun s hs => ?_⟩
      have h10 : (10 : ℚ) ≤ s := standard_resistors_ge_ten s hs
      have h1 : |(10 : ℚ) - v| = 10 - v := abs_of_pos (by linarith)
      have h2 : |s - v| = s - v := abs_of_pos (by linarith)
      rw [h1, h2]
      linarith
    · have hspec := pyMinBy_spec (fun x => |x - v|) STANDARD_RESISTORS (by decide)
      exact ⟨hspec.1, hspec.2⟩
  · intro vs vf ima hvf hima
    unfold calculate_led_resistor
    rw [if_neg (not_le.mpr hvf)]
    have hca : ¬ ima / 1000 = 0 := by
      intro h
      exact hima (by field_simp at h; exact h)
    rw [if_neg hca]
    refine ⟨pyMinBy (fun x => |x - (vs - vf) / (ima / 1000)|) ohmsStandardValues,
      rfl, ?_, ?_⟩
    · exact (pyMinBy_spec _ ohmsStandardValues (by rw [ohmsStandardValues_eq]; decide)).1
    · exact (pyMinBy_spec _ ohmsStandardValues (by rw [ohmsStandardValues_eq]; decide)).2

/-- Witness for the amended C7 statement at supply 5 V, forward voltage 2 V,
desired current 15 mA. -/
theorem nearest_standard_minimal_witness :
    (2 : ℚ) < 5 ∧ (15 : ℚ) ≠ 0 ∧
    ∃ nst : ℚ,
      (calculate_led_resistor 5 2 15).map OhmsLedResult.nearest_standard =
        .ok (some nst) ∧
      nst ∈ ohmsStandardValues ∧
      ∀ s ∈ ohmsStandardValues,
        |nst - (5 - 2 : ℚ) / (15 / 1000)| ≤ |s - (5 - 2 : ℚ) / (15 / 1000)| :=
  ⟨by norm_num, by norm_num,
    nearest_standard_minimal.2 5 2 15 (by norm_num) (by norm_num)⟩

/-! ## C6 -/

/-- C6 counterexample: with supply 5 V, forward voltage 2 V and forward
current 0 mA the supply margin is positive, yet `calculate_component_value`
returns no result record at all: `(vs - vf) / if_a` raises
`ZeroDivisionError`. -/
theorem led_resistor_zero_current_raises :
    calculate_component_value_led_resistor 5 2 0 = .error .zeroDivisionError ∧
    ¬(5 : ℚ) ≤ 2 := by
  constructor
  · norm_num [calculate_component_value_led_resistor]
  · norm_num

/-- C6 amended: the `led_resistor` calculation returns validation "error"
with no numeric result exactly when the supply voltage is at most the LED
forward voltage; otherwise, provided the forward current is nonzero, it
returns the raw resistance `(vs - vf) / (if_ma / 1000)`, its nearest standard
value, and the current and power recomputed at that standard value; in
particular supply 5 V, forward voltage 2 V, forward current 15 mA yields
200 Ω, snapped to 200 Ω, with recomputed current exactly 15 mA. -/
theorem led_resistor_calc_correct :
    (∀ vs vf if_ma : ℚ,
      ((∃ rec, calculate_component_value_led_resistor vs vf if_ma = .ok rec ∧
          rec.validation = "error" ∧ rec.result = none) ↔ vs ≤ vf) ∧
      (vf < vs → if_ma ≠ 0 →
        calculate_component_value_led_resistor vs vf if_ma =
          .ok { validation := "valid"
                result := some ((vs - vf) / (if_ma / 1000))
                nearest_standard_value :=
                  some (find_nearest_standard_resistor ((vs - vf) / (if_ma / 1000)))
                actual_current :=
                  some ((vs - vf) /
                    find_nearest_standard_resistor ((vs - vf) / (if_ma / 1000)) * 1000)
                power_dissipation :=
                  some (((vs - vf) /
                      find_nearest_standard_resistor ((vs - vf) / (if_ma / 1000)) * 1000 / 1000) ^ 2 *
                    find_nearest_standard_resistor ((vs - vf) / (if_ma / 1000))) })) ∧
    calculate_component_value_led_resistor 5 2 15 =
      .ok { validation := "valid", result := some 200, nearest_standard_value := some 200,
            actual_current := some 15, power_dissipation := some (9 / 200) } := by
  constructor
  · intro vs vf if_ma
    constructor
    · constructor
      · rintro ⟨rec, heq, hval, -⟩
        by_contra hnle
        simp only [calculate_component_value_led_resistor, if_neg hnle] at heq
        split_ifs at heq
        all_goals
          first
            | exact Except.noConfusion heq
            | (cases heq; simp at hval)
      · intro hle
        refine ⟨{ validation := "error", result := none, nearest_standard_value := none,
                  actual_current := none, power_dissipation := none }, ?_, rfl, rfl⟩
        simp only [calculate_component_value_led_resistor, if_pos hle]
    · intro hlt hma
      have hnle : ¬vs ≤ vf := not_le.mpr hlt
      have h0 : ¬if_ma / 1000 = 0 := by
        intro h
        apply hma
        field_simp at h
        exact h
      simp only [calculate_component_value_led_resistor, if_neg hnle, if_neg h0]
  · norm_num [calculate_component_value_led_resistor, find_nearest_standard_resistor,
      pyMinBy, STANDARD_RESISTORS]

/-- Witness for the amended C6 statement: the error case at supply 5 V,
forward voltage 7 V, and the numeric case at supply 5 V, forward voltage 2 V,
current 15 mA. -/
theorem led_resistor_calc_correct_witness :
    ((5 : ℚ) ≤ 7 ∧ ∃ rec, calculate_component_value_led_resistor 5 7 15 = .ok rec ∧
      rec.validation = "error" ∧ rec.result = none) ∧
    ((2 : ℚ) < 5 ∧ (15 : ℚ) ≠ 0 ∧
      calculate_component_value_led_resistor 5 2 15 =
        .ok { validation := "valid"
              result := some ((5 - 2) / (15 / 1000))
              nearest_standard_value :=
                some (find_nearest_standard_resistor ((5 - 2) / (15 / 1000)))
              actual_current :=
                some ((5 - 2) / find_nearest_standard_resistor ((5 - 2) / (15 / 1000)) * 1000)
              power_dissipation :=
                some (((5 - 2) /
                    find_nearest_standard_resistor ((5 - 2) / (15 / 1000)) * 1000 / 1000) ^ 2 *
                  find_nearest_standard_resistor ((5 - 2) / (15 / 1000))) }) :=
  ⟨⟨by norm_num, (led_resistor_calc_correct.1 5 7 15).1.mpr (by norm_num)⟩,
   ⟨by norm_num, by norm_num,
    (led_resistor_calc_correct.1 5 2 15).2 (by norm_num) (by norm_num)⟩⟩

/-! ## C2 -/

/-- A digit character is not in the unit-stripping class. -/
theorem isUnitChar_false_of_digit (c : Char) (h : c.isDigit = true) :
    isUnitChar c = false := by
  by_contra hne
  have htrue : isUnitChar c = true := by
    revert hne
    cases isUnitChar c <;> simp
  simp only [isUnitChar, Bool.or_eq_true, decide_eq_true_eq] at htrue
  rcases htrue with ((((h1 | h1) | h1) | h1) | h1) | h1 <;> subst h1 <;>
    exact absurd h (by decide)

/-- Stripping a unit from a string that ends with one unit character drops
exactly that character. -/
theorem stripUnit_concat (x : List Char) (c : Char) (hc : isUnitChar c = true) :
    stripUnit (x ++ [c]) = x := by
  simp [stripUnit, List.getLast?_concat, List.dropLast_concat, hc]

/-- Stripping a unit from a string whose last character is not in the unit
class leaves the string unchanged. -/
theorem stripUnit_eq_self (cs : List Char)
    (h : ∀ c, cs.getLast? = some c → isUnitChar c = false) : stripUnit cs = cs := by
  unfold stripUnit
  cases hl : cs.getLast? with
  | none => rfl
  | some c => simp [h c hl]

/-- `takeWhile`/`dropWhile` on an all-satisfying block followed by a
non-satisfying (or empty) remainder. -/
theorem takeWhile_dropWhile_append (p : Char → Bool) (l r : List Char)
    (hl : ∀ c ∈ l, p c = true) (hr : ∀ c, r.head? = some c → p c = false) :
    (l ++ r).takeWhile p = l ∧ (l ++ r).dropWhile p = r := by
  induction l with
  | nil =>
      simp only [List.nil_append]
      cases r with
      | nil => simp
      | cons c rs =>
          have hc := hr c rfl
          simp [List.takeWhile_cons, List.dropWhile_cons, hc]
  | cons c cs ih =>
      have hc := hl c (List.mem_cons_self _ _)
      have ih' := ih (fun d hd => hl d (List.mem_cons_of_mem _ hd))
      simp only [List.cons_append, List.takeWhile_cons, List.dropWhile_cons, hc]
      simp [ih'.1, ih'.2]

/-- The modelled regex search on a nonempty numeric run followed by a
non-numeric remainder finds exactly that split. -/
theorem firstNumRun_append (l r : List Char) (hl0 : l ≠ [])
    (hl : ∀ c ∈ l, isNumChar c = true)
    (hr : ∀ c, r.head? = some c → isNumChar c = false) :
    firstNumRun (l ++ r) = some (l, r) := by
  cases l with
  | nil => exact absurd rfl hl0
  | cons c cs =>
      have hc := hl c (List.mem_cons_self _ _)
      have hsplit := takeWhile_dropWhile_append isNumChar (c :: cs) r hl hr
      simp only [List.cons_append, firstNumRun, hc, if_true, Option.some.injEq,
        Prod.mk.injEq]
      exact ⟨hsplit.1, hsplit.2⟩

/-- Python `float()` applied to a rendered decimal magnitude returns its
positional value. -/
theorem pyFloatBody_magnitude (ip : List Char) (fp : Option (List Char))
    (hip : ip ≠ []) (hipd : ∀ c ∈ ip, c.isDigit = true)
    (hfpd : ∀ ds, fp = some ds → ∀ c ∈ ds, c.isDigit = true) :
    pyFloatBody (renderMagnitude ip fp) = some (decimalVal ip fp) := by
  have hipne : ip.isEmpty = false := by
    cases ip with
    | nil => exact absurd rfl hip
    | cons c cs => rfl
  cases fp with
  | none =>
      have hsplit := takeWhile_dropWhile_append Char.isDigit ip []
        hipd (by intro c hc; simp at hc)
      rw [List.append_nil] at hsplit
      simp only [renderMagnitude, pyFloatBody, List.append_nil]
      rw [hsplit.1, hsplit.2]
      simp [hipne, decimalVal]
  | some ds =>
      have hdot : ∀ c, (('.' :: ds).head? = some c) → Char.isDigit c = false := by
        intro c hc
        simp only [List.head?_cons, Option.some.injEq] at hc
        subst hc
        decide
      have hsplit := takeWhile_dropWhile_append Char.isDigit ip ('.' :: ds) hipd hdot
      simp only [renderMagnitude, pyFloatBody]
      rw [hsplit.1, hsplit.2]
      have hall : ds.all Char.isDigit = true := List.all_eq_true.mpr (hfpd ds rfl)
      simp [hall, hipne, decimalVal]

/-- Python `float()` (with optional sign handling) applied to a rendered
decimal magnitude returns its positional value. -/
theorem pyFloat?_magnitude (ip : List Char) (fp : Option (List Char))
    (hip : ip ≠ []) (hipd : ∀ c ∈ ip, c.isDigit = true)
    (hfpd : ∀ ds, fp = some ds → ∀ c ∈ ds, c.isDigit = true) :
    pyFloat? (renderMagnitude ip fp) = some (decimalVal ip fp) := by
  unfold pyFloat?
  split
  · rename_i body heq
    cases ip with
    | nil => exact absurd rfl hip
    | cons c cs =>
        have hhead : c = '-' := by
          have h1 : (renderMagnitude (c :: cs) fp).head? = some '-' := by
            rw [heq]
            rfl
          simp only [renderMagnitude, List.cons_append, List.head?_cons,
            Option.some.injEq] at h1
          exact h1
        have hd := hipd c (List.mem_cons_self _ _)
        rw [hhead] at hd
        exact absurd hd (by decide)
  · exact pyFloatBody_magnitude ip fp hip hipd hfpd

/-- C2: `parse_value` of the empty string is exactly 0, and for every decimal
magnitude, every SI prefix in k, M, G, m, u, n, p (or none) and every
trailing unit among V, A, Ω, Hz, F (or none), `parse_value` of their
concatenation is the numeric value of the magnitude times the prefix
multiplier (k = 1e3, M = 1e6, G = 1e9, m = 1e-3, u = 1e-6, n = 1e-9,
p = 1e-12, and 1 for no prefix). -/
theorem parse_value_si_correct :
    parse_value [] = some 0 ∧
    ∀ (ip : List Char) (fp : Option (List Char)) (px : Option Char) (un : List Char),
      ip ≠ [] →
      (∀ c ∈ ip, c.isDigit = true) →
      (∀ ds, fp = some ds → ∀ c ∈ ds, c.isDigit = true) →
      px ∈ ([none, some 'k', some 'M', some 'G', some 'm', some 'u', some 'n', some 'p'] :
        List (Option Char)) →
      un ∈ ([[], ['V'], ['A'], ['Ω'], ['H', 'z'], ['F']] : List (List Char)) →
      parse_value (renderMagnitude ip fp ++ px.toList ++ un) =
        some (decimalVal ip fp * siMultOf px) := by
  constructor
  · rfl
  · intro ip fp px un hip hipd hfpd hpx hun
    have hmagchar : ∀ c ∈ renderMagnitude ip fp, c.isDigit = true ∨ c = '.' := by
      intro c hc
      unfold renderMagnitude at hc
      rcases List.mem_append.mp hc with h | h
      · exact Or.inl (hipd c h)
      · cases fp with
        | none => simp at h
        | some ds =>
            rcases List.mem_cons.mp h with h' | h'
            · exact Or.inr h'
            · exact Or.inl (hfpd ds rfl c h')
    have hmagnum : ∀ c ∈ renderMagnitude ip fp, isNumChar c = true := by
      intro c hc
      rcases hmagchar c hc with h | h
      · simp [isNumChar, h]
      · simp [isNumChar, h]
    have hmagne : renderMagnitude ip fp ≠ [] := by
      unfold renderMagnitude
      intro h
      exact hip (List.append_eq_nil.mp h).1
    have hpxfacts : ∀ c, px = some c → isUnitChar c = false ∧ isNumChar c = false := by
      intro c hc
      simp only [List.mem_cons, List.not_mem_nil, or_false] at hpx
      rcases hpx with h | h | h | h | h | h | h | h <;> rw [h] at hc <;>
        first
          | exact Option.noConfusion hc
          | (injection hc with hc2; subst hc2; exact ⟨by decide, by decide⟩)
    have hmultfact : ∀ tail : List Char, tail = [] ∨ tail = ['H'] →
        (match (px.toList ++ tail : List Char) with
          | c :: _ => (siMult c).getD 1
          | [] => (1 : ℚ)) = siMultOf px := by
      intro tail htail
      cases px with
      | some c => rfl
      | none =>
          rcases htail with rfl | rfl
          · rfl
          · show (siMult 'H').getD 1 = 1
            decide
    have hheadfact : ∀ tail : List Char, tail = [] ∨ tail = ['H'] →
        ∀ c, (px.toList ++ tail).head? = some c → isNumChar c = false := by
      intro tail htail c hc
      cases px with
      | some d =>
          simp only [Option.toList, List.cons_append, List.head?_cons,
            Option.some.injEq] at hc
          subst hc
          exact (hpxfacts d rfl).2
      | none =>
          simp only [Option.toList, List.nil_append] at hc
          rcases htail with rfl | rfl
          · exact absurd hc (by simp)
          · simp only [List.head?_cons, Option.some.injEq] at hc
            subst hc
            decide
    have hlastpx : ∀ c, (renderMagnitude ip fp ++ px.toList).getLast? = some c →
        isUnitChar c = false := by
      intro c hc
      cases px with
      | some d =>
          rw [show (Option.some d).toList = [d] from rfl, List.getLast?_concat] at hc
          injection hc with hc2
          subst hc2
          exact (hpxfacts d rfl).1
      | none =>
          rw [show (Option.none : Option Char).toList = [] from rfl,
            List.append_nil] at hc
          have hmem : c ∈ renderMagnitude ip fp := by
            obtain ⟨hne2, heq2⟩ := List.mem_getLast?_eq_getLast hc
            rw [heq2]
            exact List.getLast_mem hne2
          rcases hmagchar c hmem with h | h
          · exact isUnitChar_false_of_digit c h
          · rw [h]
            decide
    have hstrip : ∃ tail : List Char, (tail = [] ∨ tail = ['H']) ∧
        stripUnit (renderMagnitude ip fp ++ px.toList ++ un) =
          renderMagnitude ip fp ++ (px.toList ++ tail) := by
      simp only [List.mem_cons, List.not_mem_nil, or_false] at hun
      rcases hun with h | h | h | h | h | h <;> subst h
      · refine ⟨[], Or.inl rfl, ?_⟩
        rw [List.append_nil, List.append_nil]
        exact stripUnit_eq_self _ hlastpx
      · exact ⟨[], Or.inl rfl, by
          rw [List.append_nil, stripUnit_concat _ 'V' (by decide)]⟩
      · exact ⟨[], Or.inl rfl, by
          rw [List.append_nil, stripUnit_concat _ 'A' (by decide)]⟩
      · exact ⟨[], Or.inl rfl, by
          rw [List.append_nil, stripUnit_concat _ 'Ω' (by decide)]⟩
      · refine ⟨['H'], Or.inr rfl, ?_⟩
        rw [show (renderMagnitude ip fp ++ px.toList ++ ['H', 'z'] : List Char) =
          (renderMagnitude ip fp ++ px.toList ++ ['H']) ++ ['z'] by simp]
        rw [stripUnit_concat _ 'z' (by decide), List.append_assoc]
      · exact ⟨[], Or.inl rfl, by
          rw [List.append_nil, stripUnit_concat _ 'F' (by decide)]⟩
    obtain ⟨tail, htail, hstripEq⟩ := hstrip
    have hne : ¬((renderMagnitude ip fp ++ px.toList ++ un).isEmpty = true) := by
      simp only [List.isEmpty_iff, List.append_eq_nil]
      intro h
      exact hmagne h.1.1
    simp only [parse_value]
    rw [if_neg hne, hstripEq,
      firstNumRun_append _ _ hmagne hmagnum (hheadfact tail htail)]
    dsimp only
    rw [pyFloat?_magnitude ip fp hip hipd hfpd]
    dsimp only
    rw [hmultfact tail htail]

/-- Witness for C2: parsing "4.7kV" (magnitude 4.7, prefix k, unit V)
yields exactly 4700. -/
theorem parse_value_si_correct_witness :
    parse_value "4.7kV".data = some 4700 := by
  have h := parse_value_si_correct.2 ['4'] (some ['7']) (some 'k') ['V']
    (by decide) (by decide) (by intro ds hds; cases hds; decide) (by decide) (by decide)
  have he : renderMagnitude ['4'] (some ['7']) ++ (Option.some 'k').toList ++ ['V'] =
      "4.7kV".data := by decide
  rw [he] at h
  rw [h]
  have h4 : natValD ['4'] = 4 := rfl
  have h7 : natValD ['7'] = 7 := rfl
  norm_num [decimalVal, h4, h7, siMultOf, siMult]

/-! ## C1 -/

/-- Field-level description of `_analyze_opamp_circuit` on an identified
inverting amplifier: given that the op-amp nodes form a dict with the
non-inverting role on GND, that a feedback and an input resistor are found
and their values parse (with nonzero input resistance), and that the supply
reads succeed, the analyzer records gain `-(Rf/Rin)`, the input voltage, the
expected output `gain * Vin`, and appends the saturation faults of the
source's if/elif pair. -/
theorem analyzeOpamp_inverting_fields
    (d : CircuitData) (opamp : Component) (resistors : List Component)
    (m : List (String × String)) (rfc rinc : Component)
    (qrf qrin qvin vpos vneg : ℚ)
    (hm : opamp.nodes = .dict m)
    (hginv : roleGet m "non_inverting" = some "GND")
    (hrf : findRf resistors (roleGet m "output") (roleGet m "inverting") = some rfc)
    (hrin : findRin resistors (roleGet m "inverting") (some rfc) = some rinc)
    (hqrf : parseValueOpt rfc.value = some qrf)
    (hqrin : parseValueOpt rinc.value = some qrin)
    (hqrin0 : qrin ≠ 0)
    (hvin : inputVoltageE d = .ok qvin)
    (hvp : (getSupplyVoltage d "VCC_POS").map (fun v => pyOrDefault v 15) = .ok vpos)
    (hvn : (getSupplyVoltage d "VCC_NEG").map (fun v => pyOrDefault v (-15)) = .ok vneg) :
    (analyzeOpampCircuit d opamp resistors).faults =
      (if vpos < -(qrf / qrin) * qvin then [FaultKind.posSaturation]
       else if -(qrf / qrin) * qvin < vneg then [FaultKind.negSaturation] else []) ∧
    (analyzeOpampCircuit d opamp resistors).gain = some (-(qrf / qrin)) ∧
    (analyzeOpampCircuit d opamp resistors).input_voltage = some qvin ∧
    (analyzeOpampCircuit d opamp resistors).expected_output =
      some (-(qrf / qrin) * qvin) := by
  cases hgp : getSupplyVoltage d "VCC_POS" with
  | error e =>
      rw [hgp] at hvp
      exact absurd hvp (by simp [Except.map])
  | ok vpOpt =>
    rw [hgp] at hvp
    simp only [Except.map, Except.ok.injEq] at hvp
    cases hgn : getSupplyVoltage d "VCC_NEG" with
    | error e =>
        rw [hgn] at hvn
        exact absurd hvn (by simp [Except.map])
    | ok vnOpt =>
      rw [hgn] at hvn
      simp only [Except.map, Except.ok.injEq] at hvn
      cases hiv : inputVoltageE d with
      | error e =>
          rw [hiv] at hvin
          exact absurd hvin (by simp)
      | ok qv =>
        rw [hiv] at hvin
        injection hvin with hvin
        subst hvin
        subst hvp
        subst hvn
        simp only [analyzeOpampCircuit, hm, hgp, hgn, hiv, hrf, hrin, hginv, hqrf, hqrin,
          hqrin0, if_false, if_true]
        cases hmo : d.measured_outputs with
        | none => simp
        | some mo =>
            cases hvo : roleGet mo "VOUT" with
            | none => simp [hvo]
            | some mstr =>
                by_cases hms : mstr = ""
                · simp [hvo, hms]
                · cases hpv : parse_value mstr.data with
                  | none => simp [hvo, hms, hpv]
                  | some mv => simp [hvo, hms, hpv]

/-- C1 amended: whenever the op-amp analysis identifies an inverting
amplifier (dict nodes, non-inverting role on GND, a feedback resistor between
output and inverting node, a distinct input resistor on the inverting node
with nonzero parsed value, and successful supply reads), the analyzer
computes gain = -Rf/Rin and expected Vout = gain * Vin (Vin from the first
supply whose id does not contain "VCC", 0.0 if none), appends a
positive-saturation fault exactly when the expected Vout exceeds the
positive rail, and appends a negative-saturation fault exactly when the
expected Vout is below the negative rail and does not exceed the positive
rail (the source tests the negative rail in an elif). -/
theorem analyze_opamp_inverting_saturation
    (d : CircuitData) (opamp : Component) (resistors : List Component)
    (m : List (String × String)) (rfc rinc : Component)
    (qrf qrin qvin vpos vneg : ℚ)
    (hm : opamp.nodes = .dict m)
    (hginv : roleGet m "non_inverting" = some "GND")
    (hrf : findRf resistors (roleGet m "output") (roleGet m "inverting") = some rfc)
    (hrin : findRin resistors (roleGet m "inverting") (some rfc) = some rinc)
    (hqrf : parseValueOpt rfc.value = some qrf)
    (hqrin : parseValueOpt rinc.value = some qrin)
    (hqrin0 : qrin ≠ 0)
    (hvin : inputVoltageE d = .ok qvin)
    (hvp : (getSupplyVoltage d "VCC_POS").map (fun v => pyOrDefault v 15) = .ok vpos)
    (hvn : (getSupplyVoltage d "VCC_NEG").map (fun v => pyOrDefault v (-15)) = .ok vneg) :
    (analyzeOpampCircuit d opamp resistors).gain = some (-(qrf / qrin)) ∧
    (analyzeOpampCircuit d opamp resistors).input_voltage = some qvin ∧
    (analyzeOpampCircuit d opamp resistors).expected_output =
      some (-(qrf / qrin) * qvin) ∧
    (analyzeOpampCircuit d opamp resistors).faults =
      (if vpos < -(qrf / qrin) * qvin then [FaultKind.posSaturation]
       else if -(qrf / qrin) * qvin < vneg then [FaultKind.negSaturation] else []) ∧
    (FaultKind.posSaturation ∈ (analyzeOpampCircuit d opamp resistors).faults ↔
      vpos < -(qrf / qrin) * qvin) ∧
    (FaultKind.negSaturation ∈ (analyzeOpampCircuit d opamp resistors).faults ↔
      (-(qrf / qrin) * qvin < vneg ∧ ¬vpos < -(qrf / qrin) * qvin)) := by
  obtain ⟨hf, hg, hi, he⟩ := analyzeOpamp_inverting_fields d opamp resistors m rfc rinc
    qrf qrin qvin vpos vneg hm hginv hrf hrin hqrf hqrin hqrin0 hvin hvp hvn
  refine ⟨hg, hi, he, hf, ?_, ?_⟩
  · rw [hf]
    generalize -(qrf / qrin) * qvin = x
    by_cases h1 : vpos < x
    · simp [h1]
    · by_cases h2 : x < vneg <;> simp [h1, h2]
  · rw [hf]
    generalize -(qrf / qrin) * qvin = x
    by_cases h1 : vpos < x
    · simp [h1]
    · by_cases h2 : x < vneg <;> simp [h1, h2]

/-- C1 counterexample: in `railFlipCircuit` the expected output is +1 V, the
parsed negative rail is +5 V, so the expected output is below the negative
rail, yet the analyzer appends no negative-saturation fault (the elif was
short-circuited by the positive-rail branch). -/
theorem analyze_opamp_neg_rail_missed :
    (analyzeOpampCircuit railFlipCircuit invOpamp (invResistors "10k")).expected_output =
      some 1 ∧
    (getSupplyVoltage railFlipCircuit "VCC_NEG").map (fun v => pyOrDefault v (-15)) =
      .ok 5 ∧
    (1 : ℚ) < 5 ∧
    FaultKind.negSaturation ∉
      (analyzeOpampCircuit railFlipCircuit invOpamp (invResistors "10k")).faults := by
  have hvp : (getSupplyVoltage railFlipCircuit "VCC_POS").map
      (fun v => pyOrDefault v 15) = .ok (-5) := by
    have h0 : getSupplyVoltage railFlipCircuit "VCC_POS" =
        .ok (some (-(5 : ℚ) * 1)) := rfl
    rw [h0]
    norm_num [pyOrDefault, Except.map]
  have hvn : (getSupplyVoltage railFlipCircuit "VCC_NEG").map
      (fun v => pyOrDefault v (-15)) = .ok 5 := by
    have h0 : getSupplyVoltage railFlipCircuit "VCC_NEG" =
        .ok (some ((5 : ℚ) * 1)) := rfl
    rw [h0]
    norm_num [pyOrDefault, Except.map]
  obtain ⟨hf, hg, hi, he⟩ := analyzeOpamp_inverting_fields railFlipCircuit invOpamp
    (invResistors "10k")
    [("inverting", "INV"), ("non_inverting", "GND"), ("output", "OUT")]
    { id := "R1", ctype := "Resistor", value := some "10k", nodes := .list ["OUT", "INV"] }
    { id := "R2", ctype := "Resistor", value := some "10k", nodes := .list ["VIN", "INV"] }
    ((10 : ℚ) * 1000) ((10 : ℚ) * 1000) (-(1 : ℚ) * 1) (-5) 5
    rfl rfl rfl rfl rfl rfl (by norm_num) rfl hvp hvn
  refine ⟨?_, hvn, by norm_num, ?_⟩
  · rw [he]
    norm_num
  · rw [hf]
    rw [if_pos (by norm_num)]
    simp

/-- Witness for the amended C1 statement: the claim's Rf = 100 kΩ,
Rin = 10 kΩ, Vin = 2 V example with default ±15 V rails produces exactly one
fault, the negative saturation (expected output -20 V), and the gain is -10. -/
theorem analyze_opamp_inverting_saturation_witness :
    (analyzeOpampCircuit (invCircuit "100k") invOpamp (invResistors "100k")).faults =
      [FaultKind.negSaturation] ∧
    (analyzeOpampCircuit (invCircuit "100k") invOpamp (invResistors "100k")).gain =
      some (-10) ∧
    (analyzeOpampCircuit (invCircuit "10k") invOpamp (invResistors "10k")).faults = [] := by
  have hvp : ∀ rfv, (getSupplyVoltage (invCircuit rfv) "VCC_POS").map
      (fun v => pyOrDefault v 15) = .ok 15 := fun rfv => rfl
  have hvn : ∀ rfv, (getSupplyVoltage (invCircuit rfv) "VCC_NEG").map
      (fun v => pyOrDefault v (-15)) = .ok (-15) := fun rfv => rfl
  obtain ⟨hg1, -, -, hf1, -, -⟩ := analyze_opamp_inverting_saturation
    (invCircuit "100k") invOpamp (invResistors "100k")
    [("inverting", "INV"), ("non_inverting", "GND"), ("output", "OUT")]
    { id := "R1", ctype := "Resistor", value := some "100k", nodes := .list ["OUT", "INV"] }
    { id := "R2", ctype := "Resistor", value := some "10k", nodes := .list ["VIN", "INV"] }
    ((100 : ℚ) * 1000) ((10 : ℚ) * 1000) ((2 : ℚ) * 1) 15 (-15)
    rfl rfl rfl rfl rfl rfl (by norm_num) rfl (hvp "100k") (hvn "100k")
  obtain ⟨-, -, -, hf2, -, -⟩ := analyze_opamp_inverting_saturation
    (invCircuit "10k") invOpamp (invResistors "10k")
    [("inverting", "INV"), ("non_inverting", "GND"), ("output", "OUT")]
    { id := "R1", ctype := "Resistor", value := some "10k", nodes := .list ["OUT", "INV"] }
    { id := "R2", ctype := "Resistor", value := some "10k", nodes := .list ["VIN", "INV"] }
    ((10 : ℚ) * 1000) ((10 : ℚ) * 1000) ((2 : ℚ) * 1) 15 (-15)
    rfl rfl rfl rfl rfl rfl (by norm_num) rfl (hvp "10k") (hvn "10k")
  refine ⟨?_, ?_, ?_⟩
  · rw [hf1, if_neg (by norm_num), if_pos (by norm_num)]
  · rw [hg1]
    norm_num
  · rw [hf2, if_neg (by norm_num), if_neg (by norm_num)]

/-! ## C4 -/

/-- Numeric bounds on `log10 2` from the integer inequalities
`10^601 < 2^2000 < 10^603`. -/
theorem logb_ten_two_bounds :
    (601 : ℝ) / 2000 < Real.logb 10 2 ∧ Real.logb 10 2 < 603 / 2000 := by
  have hlog10 : (0 : ℝ) < Real.log 10 := Real.log_pos (by norm_num)
  have hlb : Real.logb 10 2 = Real.log 2 / Real.log 10 := Real.log_div_log.symm
  have h1 : ((10 : ℝ) ^ (601 : ℕ)) < 2 ^ (2000 : ℕ) := by
    have : (10 : ℕ) ^ 601 < 2 ^ 2000 := by norm_num
    exact_mod_cast this
  have h2 : ((2 : ℝ) ^ (2000 : ℕ)) < 10 ^ (603 : ℕ) := by
    have : (2 : ℕ) ^ 2000 < 10 ^ 603 := by norm_num
    exact_mod_cast this
  have hla : (601 : ℝ) * Real.log 10 < 2000 * Real.log 2 := by
    have := Real.log_lt_log (by positivity) h1
    rw [Real.log_pow, Real.log_pow] at this
    exact_mod_cast this
  have hlc : (2000 : ℝ) * Real.log 2 < 603 * Real.log 10 := by
    have := Real.log_lt_log (by positivity) h2
    rw [Real.log_pow, Real.log_pow] at this
    exact_mod_cast this
  constructor
  · rw [hlb, lt_div_iff₀ hlog10]
    linarith
  · rw [hlb, div_lt_iff₀ hlog10]
    linarith

/-- C4: for positive R and C, `calculate_rc_filter` returns cutoff frequency
`1 / (2 π R C)`, time constant `R C`, and a Bode table with exactly one row
for each frequency `m * 10^e` (e over -2..4, m over 1, 2, 5, in that
enumeration order) whose magnitude is `-10 log10 (1 + (f/fc)^2)` dB and
whose phase is `-atan (f/fc)` in degrees, each rounded to two decimals; the
table's magnitude formula at f = fc evaluates to -3.01 dB and its phase to
-45 degrees. -/
theorem calculate_rc_filter_correct (R C : ℝ) (hR : 0 < R) (hC : 0 < C) :
    (calculate_rc_filter R C).cutoff_frequency = 1 / (2 * Real.pi * R * C) ∧
    (calculate_rc_filter R C).time_constant = R * C ∧
    (calculate_rc_filter R C).bode_data = bodeTableSpec (1 / (2 * Real.pi * R * C)) ∧
    round2 (bodeMagnitude (calculate_rc_filter R C).cutoff_frequency
      (calculate_rc_filter R C).cutoff_frequency) = -(301 / 100) ∧
    round2 (bodePhase (calculate_rc_filter R C).cutoff_frequency
      (calculate_rc_filter R C).cutoff_frequency) = -45 := by
  have hfc : (calculate_rc_filter R C).cutoff_frequency =
      1 / (2 * Real.pi * R * C) := rfl
  have hfcpos : 0 < (calculate_rc_filter R C).cutoff_frequency := by
    rw [hfc]
    have : 0 < 2 * Real.pi * R * C := by positivity
    positivity
  have hfc0 : (calculate_rc_filter R C).cutoff_frequency ≠ 0 := ne_of_gt hfcpos
  refine ⟨rfl, rfl, ?_, ?_, ?_⟩
  · simp only [calculate_rc_filter]
    unfold bodeTableSpec bodeFreqs
    have hfl : ((List.range 7).map (fun k => (k : ℤ) - 2)) =
        ([-2, -1, 0, 1, 2, 3, 4] : List ℤ) := by decide
    rw [hfl]
    refine List.map_congr_left (fun f _ => ?_)
    unfold bodeMagnitude bodePhase
    have hph : -(Real.arctan (f / (1 / (2 * Real.pi * R * C))) * 180 / Real.pi) =
        -(180 / Real.pi * Real.arctan (f / (1 / (2 * Real.pi * R * C)))) := by
      ring
    rw [hph]
  · unfold bodeMagnitude
    rw [div_self hfc0]
    have h2 : (1 : ℝ) + 1 ^ 2 = 2 := by norm_num
    rw [h2]
    obtain ⟨hlo, hhi⟩ := logb_ten_two_bounds
    unfold round2
    have hy : (100 : ℝ) * (-10 * Real.logb 10 2) = -1000 * Real.logb 10 2 := by ring
    rw [hy]
    have hround : round ((-1000 : ℝ) * Real.logb 10 2) = (-301 : ℤ) := by
      rw [round_eq, Int.floor_eq_iff]
      constructor
      · push_cast
        nlinarith
      · push_cast
        nlinarith
    rw [hround]
    norm_num
  · unfold bodePhase
    rw [div_self hfc0, Real.arctan_one]
    have hpi : Real.pi ≠ 0 := Real.pi_ne_zero
    have h45 : -(Real.pi / 4 * 180 / Real.pi) = (-45 : ℝ) := by
      field_simp
      ring
    rw [h45]
    unfold round2
    have : (100 : ℝ) * (-45) = ((-4500 : ℤ) : ℝ) := by norm_num
    rw [this, round_intCast]
    norm_num

/-- Witness for C4 at R = 10 kΩ, C = 100 nF: the time constant is 1 ms. -/
theorem calculate_rc_filter_correct_witness :
    (0 : ℝ) < 10000 ∧ (0 : ℝ) < 1 / 10 ^ 7 ∧
    (calculate_rc_filter 10000 (1 / 10 ^ 7)).time_constant = 10000 * (1 / 10 ^ 7) :=
  ⟨by norm_num, by norm_num,
    (calculate_rc_filter_correct 10000 (1 / 10 ^ 7) (by norm_num) (by norm_num)).2.1⟩

end Nexa
